import Mathlib

/-!
Shallow embedding of the CRUD_node task service (Express + Prisma, single
route file): the Task data model, the express-validator chains attached to
each route, the Prisma table operations (`findMany`, `create`, `update`,
`delete`), JavaScript `parseInt`, and the four request handlers
(`GET /read`, `POST /create`, `POST /update`, `GET /delete/:id`).

The store is modelled as the list of rows of the `tasks` table together
with the next autoincrement id; handlers are functions from a store and a
typed request payload to an HTTP response paired with the resulting store.
-/

set_option autoImplicit false

namespace CrudNode

/-- A row of the `tasks` table: `{ id, name, info, isDone }`. -/
structure Task where
  id : Int
  name : String
  info : String
  isDone : Bool
deriving Repr, DecidableEq

/-- The state of the `tasks` table: its rows in storage order, plus the
next value of the autoincrement `id` sequence. -/
structure Store where
  tasks : List Task
  nextId : Int
deriving Repr, DecidableEq

/-- An entry of the `errors` array produced by `validationResult(req).array()`. -/
structure FieldError where
  path : String
  msg : String
deriving Repr, DecidableEq

/-- Prisma failure modes the handlers can surface through `.catch`:
`notFound` is the P2025 "record to update/delete does not exist" error,
`invalidArg` is the client-side argument validation error (e.g. `NaN` or
a missing value supplied for the unique `id`). -/
inductive StoreError where
  | notFound
  | invalidArg
deriving Repr, DecidableEq

/-- A JSON response body: a single task, an array of tasks, a
`{ errors: [...] }` validation payload, or a serialized store error. -/
inductive RespBody where
  | task (t : Task)
  | tasks (l : List Task)
  | errors (es : List FieldError)
  | storeError (e : StoreError)
deriving Repr, DecidableEq

/-- An HTTP response: status code and JSON body. -/
structure Response where
  status : Nat
  body : RespBody
deriving Repr, DecidableEq

/-- Body of a `POST /create` request; absent JSON fields are `none`. -/
structure CreateBody where
  name : Option String
  info : Option String
  isDone : Option Bool
deriving Repr, DecidableEq

/-- Body of a `POST /update` request; absent JSON fields are `none`. -/
structure UpdateBody where
  id : Option Int
  name : Option String
  info : Option String
  isDone : Option Bool
deriving Repr, DecidableEq

/-- express-validator `.notEmpty()` on a string field: an absent field is
treated as the empty string and fails; a present field fails iff empty. -/
def notEmptyCheck (v : Option String) : Bool :=
  match v with
  | none => false
  | some s => !s.isEmpty

/-- Run a list of validation chains (field path paired with its check)
against a payload, collecting one `FieldError` per failed check, exactly
as `validationResult(req).array()` reports them. -/
def runChecks {α : Type} (chains : List (String × (α → Bool))) (b : α) : List FieldError :=
  (chains.filter (fun c => !(c.2 b))).map (fun c => { path := c.1, msg := "Invalid value" })

/-- The `/create` middleware array `[body('name').notEmpty(), body('info').default(""),
body('isDone').default(false)]`: only the `name` chain carries a validator;
the other two are pure sanitizers and never produce errors. -/
def createChains : List (String × (CreateBody → Bool)) :=
  [("name", fun b => notEmptyCheck b.name)]

/-- The `/update` middleware array `[body('name'), body('info'), body('isDone')]`:
three chains with no validator attached, so every check passes. -/
def updateChains : List (String × (UpdateBody → Bool)) :=
  [("name", fun _ => true), ("info", fun _ => true), ("isDone", fun _ => true)]

/-- The `/delete/:id` middleware `param('id').notEmpty()` applied to the
path segment captured for `:id`. -/
def deleteChains : List (String × (String → Bool)) :=
  [("id", fun p => !p.isEmpty)]

/-- The `.default("")` and `.default(false)` sanitizers of the `/create`
route: they replace an absent `info` with `""` and an absent `isDone`
with `false` in `req.body` before the handler reads it. -/
def sanitizeCreate (b : CreateBody) : CreateBody :=
  { b with info := some (b.info.getD ""), isDone := some (b.isDone.getD false) }

/-- `prisma.tasks.findMany({})`: every row, in storage order. -/
def prismaFindMany (s : Store) : List Task :=
  s.tasks

/-- `prisma.tasks.create({ data: { name, info, isDone } })`: the store
assigns the next autoincrement `id`, appends the row, and returns it. -/
def prismaCreate (s : Store) (name info : String) (isDone : Bool) : Task × Store :=
  let t : Task := { id := s.nextId, name := name, info := info, isDone := isDone }
  (t, { tasks := s.tasks ++ [t], nextId := s.nextId + 1 })

/-- Lookup of the unique row matching `where: { id }`. -/
def findById (ts : List Task) (i : Int) : Option Task :=
  ts.find? (fun t => t.id == i)

/-- Overwrite `name` / `info` / `isDone` of a row from update `data`;
Prisma skips any field whose value is `undefined` (absent in the JSON
body), leaving the stored value in place. -/
def updateFields (t : Task) (name info : Option String) (isDone : Option Bool) : Task :=
  { t with
    name := name.getD t.name
    info := info.getD t.info
    isDone := isDone.getD t.isDone }

/-- Apply `updateFields` to the row matching `id` (the first match, which
is the only one under the table's unique-id constraint). -/
def updateById (ts : List Task) (i : Int) (name info : Option String) (isDone : Option Bool) :
    List Task :=
  match ts with
  | [] => []
  | t :: rest =>
    if t.id = i then updateFields t name info isDone :: rest
    else t :: updateById rest i name info isDone

/-- Remove the row matching `id` (the first match, which is the only one
under the table's unique-id constraint). -/
def removeById (ts : List Task) (i : Int) : List Task :=
  match ts with
  | [] => []
  | t :: rest => if t.id = i then rest else t :: removeById rest i

/-- `prisma.tasks.update({ where: { id }, data })`: rejects a missing or
non-numeric `id` argument, fails with P2025 when no row matches, and
otherwise overwrites the supplied fields and returns the updated row. -/
def prismaUpdate (s : Store) (b : UpdateBody) : Except StoreError (Task × Store) :=
  match b.id with
  | none => .error .invalidArg
  | some i =>
    match findById s.tasks i with
    | none => .error .notFound
    | some t =>
      .ok (updateFields t b.name b.info b.isDone,
        { s with tasks := updateById s.tasks i b.name b.info b.isDone })

/-- `prisma.tasks.delete({ where: { id } })`: rejects a `NaN` id argument
(modelled as `none`), fails with P2025 when no row matches, and otherwise
removes the row and returns its prior field values. -/
def prismaDelete (s : Store) (oi : Option Int) : Except StoreError (Task × Store) :=
  match oi with
  | none => .error .invalidArg
  | some i =>
    match findById s.tasks i with
    | none => .error .notFound
    | some t => .ok (t, { s with tasks := removeById s.tasks i })

/-- Value of a character as a digit in the given base, the way JavaScript
`parseInt` reads digits (decimal digits, then letters a–z / A–Z). -/
def digitValue (base : Nat) (c : Char) : Option Nat :=
  let v : Nat :=
    if c.isDigit then c.toNat - '0'.toNat
    else if 'a' ≤ c ∧ c ≤ 'z' then c.toNat - 'a'.toNat + 10
    else if 'A' ≤ c ∧ c ≤ 'Z' then c.toNat - 'A'.toNat + 10
    else base
  if v < base then some v else none

/-- Accumulate the longest run of leading digits, stopping at the first
character that is not a digit in the base (JS `parseInt` ignores the rest
of the string). -/
def takeDigits (base : Nat) : List Char → Nat → Nat
  | [], acc => acc
  | c :: rest, acc =>
    match digitValue base c with
    | some v => takeDigits base rest (acc * base + v)
    | none => acc

/-- JavaScript `parseInt(str)` with no radix argument: skip leading
whitespace, read an optional sign, auto-detect the `0x`/`0X` hexadecimal
prefix, then parse the longest run of digits; `none` models `NaN` (no
digit at all). -/
def jsParseInt (str : String) : Option Int :=
  let cs := str.toList.dropWhile Char.isWhitespace
  let signed : Int × List Char :=
    match cs with
    | '-' :: rest => (-1, rest)
    | '+' :: rest => (1, rest)
    | _ => (1, cs)
  let based : Nat × List Char :=
    match signed.2 with
    | '0' :: 'x' :: rest => (16, rest)
    | '0' :: 'X' :: rest => (16, rest)
    | _ => (10, signed.2)
  match based.2 with
  | [] => none
  | c :: _ =>
    match digitValue based.1 c with
    | none => none
    | some _ => some (signed.1 * (takeDigits based.1 based.2 0 : Nat))

/-- The `GET /read` handler: `res.json(await prisma.tasks.findMany({}))`
(Express `res.json` defaults the status to 200); the store is untouched. -/
def readHandler (s : Store) : Response × Store :=
  ({ status := 200, body := .tasks (prismaFindMany s) }, s)

/-- The `POST /create` handler: run the sanitizers and the validation
chains; on any validation error respond `404 { errors }` without touching
the store; otherwise insert the row and respond 200 with the created
task (a Prisma failure would surface as 500, unreachable in this model). -/
def createHandler (s : Store) (b : CreateBody) : Response × Store :=
  let b' := sanitizeCreate b
  let errs := runChecks createChains b'
  if !errs.isEmpty then
    ({ status := 404, body := .errors errs }, s)
  else
    let r := prismaCreate s (b'.name.getD "") (b'.info.getD "") (b'.isDone.getD false)
    ({ status := 200, body := .task r.1 }, r.2)

/-- The `POST /update` handler: on any validation error respond with the
default 200 status and `{ errors }`; otherwise issue the Prisma update,
answering 200 with the updated task or 500 with the caught error. -/
def updateHandler (s : Store) (b : UpdateBody) : Response × Store :=
  let errs := runChecks updateChains b
  if !errs.isEmpty then
    ({ status := 200, body := .errors errs }, s)
  else
    match prismaUpdate s b with
    | .ok r => ({ status := 200, body := .task r.1 }, r.2)
    | .error e => ({ status := 500, body := .storeError e }, s)

/-- The `GET /delete/:id` handler: on a validation error respond with the
default 200 status and `{ errors }`; otherwise issue the Prisma delete on
`parseInt(req.params.id)`, answering 200 with the deleted task's prior
values or 500 with the caught error. -/
def deleteHandler (s : Store) (idParam : String) : Response × Store :=
  let errs := runChecks deleteChains idParam
  if !errs.isEmpty then
    ({ status := 200, body := .errors errs }, s)
  else
    match prismaDelete s (jsParseInt idParam) with
    | .ok r => ({ status := 200, body := .task r.1 }, r.2)
    | .error e => ({ status := 500, body := .storeError e }, s)

/-- Well-formedness of the table state: row ids are pairwise distinct
(the unique primary-key constraint) and every id is below the
autoincrement counter. Every store reachable from the empty store through
the handlers satisfies it. -/
def Store.wf (s : Store) : Prop :=
  (s.tasks.map (fun t => t.id)).Nodup ∧ ∀ t ∈ s.tasks, t.id < s.nextId

instance (s : Store) : Decidable s.wf := by
  unfold Store.wf
  infer_instance

theorem runChecks_single {α : Type} (p : String) (f : α → Bool) (b : α) :
    runChecks [(p, f)] b = if f b then [] else [{ path := p, msg := "Invalid value" }] := by
  cases h : f b <;> simp [runChecks, h]

theorem isEmpty_false_of_ne (p : String) (hp : p ≠ "") : p.isEmpty = false := by
  cases h : p.isEmpty
  · rfl
  · exact absurd (String.isEmpty_iff p |>.mp h) hp

theorem notEmptyCheck_some_of_ne (n : String) (hne : n ≠ "") :
    notEmptyCheck (some n) = true := by
  have h : n.isEmpty = false := by
    cases h : n.isEmpty
    · rfl
    · exact absurd (String.isEmpty_iff n |>.mp h) hne
  simp [notEmptyCheck, h]

theorem findById_pred {ts : List Task} {i : Int} {t : Task}
    (h : findById ts i = some t) : t.id = i := by
  have := List.find?_some h
  simpa using this

theorem findById_mem {ts : List Task} {i : Int} {t : Task}
    (h : findById ts i = some t) : t ∈ ts :=
  List.mem_of_find?_eq_some h

theorem updateById_find {ts : List Task} {i : Int} {t : Task}
    (nm inf : Option String) (d : Option Bool)
    (h : findById ts i = some t) :
    findById (updateById ts i nm inf d) i = some (updateFields t nm inf d) := by
  induction ts with
  | nil => simp [findById] at h
  | cons hd tl ih =>
    by_cases hid : hd.id = i
    · have hbeq : (hd.id == i) = true := by simpa using hid
      have hh : hd = t := by
        simpa [findById, List.find?, hbeq] using h
      subst hh
      simp [updateById, hid, findById, List.find?, updateFields, hbeq]
    · have hbeq : (hd.id == i) = false := by simpa using hid
      have h' : findById tl i = some t := by
        simpa [findById, List.find?, hbeq] using h
      simpa [updateById, hid, findById, List.find?, hbeq] using ih h'

theorem updateById_map_id (ts : List Task) (i : Int)
    (nm inf : Option String) (d : Option Bool) :
    (updateById ts i nm inf d).map (fun t => t.id) = ts.map (fun t => t.id) := by
  induction ts with
  | nil => rfl
  | cons hd tl ih =>
    by_cases hid : hd.id = i
    · simp [updateById, hid, updateFields]
    · simp [updateById, hid, ih]

theorem removeById_sublist (ts : List Task) (i : Int) :
    List.Sublist (removeById ts i) ts := by
  induction ts with
  | nil => simp [removeById]
  | cons hd tl ih =>
    by_cases hid : hd.id = i
    · have h : removeById (hd :: tl) i = tl := by simp [removeById, hid]
      rw [h]
      exact List.sublist_cons_self hd tl
    · have h : removeById (hd :: tl) i = hd :: removeById tl i := by simp [removeById, hid]
      rw [h]
      exact List.Sublist.cons₂ hd ih

theorem removeById_id_ne {ts : List Task} (i : Int)
    (hnd : (ts.map (fun t => t.id)).Nodup) :
    ∀ u ∈ removeById ts i, u.id ≠ i := by
  induction ts with
  | nil => simp [removeById]
  | cons hd tl ih =>
    simp only [List.map_cons, List.nodup_cons] at hnd
    by_cases hid : hd.id = i
    · intro u hu
      have hu' : u ∈ tl := by simpa [removeById, hid] using hu
      intro hui
      exact hnd.1 (by simpa [hui, hid] using List.mem_map_of_mem (fun t => t.id) hu')
    · intro u hu
      rcases by simpa [removeById, hid] using hu with hu' | hu'
      · subst hu'; exact hid
      · exact ih hnd.2 u hu'

theorem updateHandler_eq_store (s : Store) (b : UpdateBody) :
    updateHandler s b =
      match prismaUpdate s b with
      | .ok r => ({ status := 200, body := .task r.1 }, r.2)
      | .error e => ({ status := 500, body := .storeError e }, s) := rfl

theorem deleteHandler_eq_store (s : Store) (p : String) (hp : p.isEmpty = false) :
    deleteHandler s p =
      match prismaDelete s (jsParseInt p) with
      | .ok r => ({ status := 200, body := .task r.1 }, r.2)
      | .error e => ({ status := 500, body := .storeError e }, s) := by
  simp [deleteHandler, runChecks_single, deleteChains, hp]

theorem createHandler_cases (s : Store) (b : CreateBody) :
    createHandler s b =
      ({ status := 404, body := .errors [{ path := "name", msg := "Invalid value" }] }, s) ∨
    ∃ n info d, createHandler s b =
      ({ status := 200, body := .task (prismaCreate s n info d).1 }, (prismaCreate s n info d).2) := by
  cases hc : notEmptyCheck (sanitizeCreate b).name
  · left
    simp [createHandler, runChecks_single, createChains, hc]
  · right
    exact ⟨(sanitizeCreate b).name.getD "", (sanitizeCreate b).info.getD "",
      (sanitizeCreate b).isDone.getD false,
      by simp [createHandler, runChecks_single, createChains, hc]⟩

theorem wf_create (s : Store) (hwf : s.wf) (n info : String) (d : Bool) :
    ((prismaCreate s n info d).2).wf ∧
    ((prismaCreate s n info d).2.tasks.countP (fun u => u.id == s.nextId)) = 1 := by
  obtain ⟨hnd, hbound⟩ := hwf
  refine ⟨⟨?_, ?_⟩, ?_⟩
  · simp only [prismaCreate, List.map_append, List.map_cons, List.map_nil]
    rw [List.nodup_append]
    refine ⟨hnd, List.nodup_singleton _, ?_⟩
    intro a ha hb
    rcases List.mem_map.mp ha with ⟨v, hv, hva⟩
    have hlt := hbound v hv
    have hae : a = s.nextId := by simpa using hb
    omega
  · intro t htmem
    simp only [prismaCreate] at htmem ⊢
    rcases List.mem_append.mp htmem with h | h
    · have := hbound t h
      omega
    · have ht : t = { id := s.nextId, name := n, info := info, isDone := d } := by
        simpa using h
      rw [ht]
      show s.nextId < s.nextId + 1
      omega
  · simp only [prismaCreate, List.countP_append, List.countP_cons, List.countP_nil]
    have h0 : s.tasks.countP (fun u => u.id == s.nextId) = 0 := by
      rw [List.countP_eq_zero]
      intro a ha
      have := hbound a ha
      simp only [beq_iff_eq]
      omega
    simp [h0]

theorem wf_updateById (s : Store) (hwf : s.wf) (i : Int)
    (nm inf : Option String) (d : Option Bool) :
    (Store.mk (updateById s.tasks i nm inf d) s.nextId).wf := by
  refine ⟨?_, ?_⟩
  · show ((updateById s.tasks i nm inf d).map (fun t => t.id)).Nodup
    rw [updateById_map_id]
    exact hwf.1
  · intro u hu
    have hmem : u.id ∈ (updateById s.tasks i nm inf d).map (fun t => t.id) :=
      List.mem_map_of_mem _ hu
    rw [updateById_map_id] at hmem
    rcases List.mem_map.mp hmem with ⟨v, hv, hvu⟩
    rw [← hvu]
    exact hwf.2 v hv

theorem wf_removeById (s : Store) (hwf : s.wf) (i : Int) :
    (Store.mk (removeById s.tasks i) s.nextId).wf := by
  refine ⟨?_, ?_⟩
  · exact ((removeById_sublist s.tasks i).map (fun t => t.id)).nodup hwf.1
  · intro u hu
    exact hwf.2 u ((removeById_sublist s.tasks i).subset hu)

/-- Claim C1: for every create request whose body has a non-empty `name`, the
handler inserts a new Task and responds 200 with the full created Task
(including the store-assigned `id`), whose `name`, `info`, `isDone` equal
the request values, with `info` defaulted to `""` and `isDone` defaulted to
`false` when omitted; on a well-formed store the assigned `id` was not
previously in use. -/
theorem create_valid_inserts_and_responds (s : Store) (b : CreateBody) (n : String)
    (hn : b.name = some n) (hne : n ≠ "") :
    createHandler s b =
      ({ status := 200,
         body := .task
           { id := s.nextId, name := n, info := b.info.getD "", isDone := b.isDone.getD false } },
       { tasks := s.tasks ++
           [{ id := s.nextId, name := n, info := b.info.getD "", isDone := b.isDone.getD false }],
         nextId := s.nextId + 1 }) ∧
    (s.wf → ∀ u ∈ s.tasks, u.id ≠ s.nextId) := by
  constructor
  · have hc : notEmptyCheck (sanitizeCreate b).name = true := by
      simp [sanitizeCreate, hn, notEmptyCheck_some_of_ne n hne]
    simp [createHandler, runChecks_single, createChains, hc, prismaCreate, sanitizeCreate, hn,
      notEmptyCheck_some_of_ne n hne]
  · rintro ⟨-, hb⟩ u hu
    exact Int.ne_of_lt (hb u hu)

/-- Witness for C1: creating `{"name":"Buy milk"}` on the empty store yields
200 with `{id 1, name "Buy milk", info "", isDone false}` and appends it. -/
theorem create_valid_inserts_and_responds_witness :
    ((⟨some "Buy milk", none, none⟩ : CreateBody).name = some "Buy milk") ∧
    ("Buy milk" ≠ "") ∧
    (createHandler ⟨[], 1⟩ ⟨some "Buy milk", none, none⟩ =
      ({ status := 200, body := .task ⟨1, "Buy milk", "", false⟩ },
       { tasks := [⟨1, "Buy milk", "", false⟩], nextId := 2 }) ∧
     (Store.wf ⟨[], 1⟩ → ∀ u ∈ ([] : List Task), u.id ≠ (1 : Int))) :=
  ⟨rfl, by decide,
    create_valid_inserts_and_responds ⟨[], 1⟩ ⟨some "Buy milk", none, none⟩ "Buy milk" rfl
      (by decide)⟩

/-- Claim C2: for every update request whose `id` matches an existing Task,
the handler overwrites that Task's `name`, `info`, `isDone` with exactly the
supplied payload values and responds 200 with the updated Task; afterwards a
lookup of that `id` in the store, and hence a read, returns the new values,
not the old ones. -/
theorem update_existing_overwrites_fields (s : Store) (i : Int) (t : Task)
    (n info : String) (d : Bool)
    (ht : findById s.tasks i = some t) :
    updateHandler s { id := some i, name := some n, info := some info, isDone := some d } =
      ({ status := 200, body := .task { id := t.id, name := n, info := info, isDone := d } },
       { s with tasks := updateById s.tasks i (some n) (some info) (some d) }) ∧
    findById
      (updateHandler s
        { id := some i, name := some n, info := some info, isDone := some d }).2.tasks i =
      some { id := t.id, name := n, info := info, isDone := d } ∧
    (readHandler
      (updateHandler s
        { id := some i, name := some n, info := some info, isDone := some d }).2).1.body =
      .tasks (updateById s.tasks i (some n) (some info) (some d)) := by
  have hu : prismaUpdate s { id := some i, name := some n, info := some info, isDone := some d } =
      .ok ({ id := t.id, name := n, info := info, isDone := d },
        { s with tasks := updateById s.tasks i (some n) (some info) (some d) }) := by
    simp [prismaUpdate, ht, updateFields]
  refine ⟨?_, ?_, ?_⟩
  · rw [updateHandler_eq_store, hu]
  · rw [updateHandler_eq_store, hu]
    simpa [updateFields] using updateById_find (some n) (some info) (some d) ht
  · rw [updateHandler_eq_store, hu]
    rfl

/-- Witness for C2: the round trip on a one-task store — updating task 1 with
new `info`/`isDone` answers 200 with the new values and the store reads them
back. -/
theorem update_existing_overwrites_fields_witness :
    (findById [⟨1, "Buy milk", "", false⟩] 1 = some ⟨1, "Buy milk", "", false⟩) ∧
    (updateHandler ⟨[⟨1, "Buy milk", "", false⟩], 2⟩
        { id := some 1, name := some "Buy milk", info := some "2%", isDone := some true } =
      ({ status := 200, body := .task { id := 1, name := "Buy milk", info := "2%", isDone := true } },
       { tasks := [⟨1, "Buy milk", "2%", true⟩], nextId := 2 }) ∧
     findById
       (updateHandler ⟨[⟨1, "Buy milk", "", false⟩], 2⟩
         { id := some 1, name := some "Buy milk", info := some "2%", isDone := some true }).2.tasks 1 =
       some { id := 1, name := "Buy milk", info := "2%", isDone := true } ∧
     (readHandler
       (updateHandler ⟨[⟨1, "Buy milk", "", false⟩], 2⟩
         { id := some 1, name := some "Buy milk", info := some "2%", isDone := some true }).2).1.body =
       .tasks (updateById [⟨1, "Buy milk", "", false⟩] 1 (some "Buy milk") (some "2%") (some true))) :=
  ⟨by decide,
    update_existing_overwrites_fields ⟨[⟨1, "Buy milk", "", false⟩], 2⟩ 1
      ⟨1, "Buy milk", "", false⟩ "Buy milk" "2%" true (by decide)⟩

/-- Claim C4: for every create request whose body has an empty or missing
`name`, no Task is persisted (the store is unchanged) and the handler
responds with status 404 and a body containing the non-empty structured
list of validation failures. -/
theorem create_invalid_name_rejected (s : Store) (b : CreateBody)
    (h : b.name = none ∨ b.name = some "") :
    createHandler s b =
      ({ status := 404, body := .errors [{ path := "name", msg := "Invalid value" }] }, s) ∧
    ([{ path := "name", msg := "Invalid value" }] : List FieldError) ≠ [] := by
  have he : notEmptyCheck (some "") = false := rfl
  have hc : notEmptyCheck (sanitizeCreate b).name = false := by
    rcases h with h | h
    · simp [sanitizeCreate, h, notEmptyCheck]
    · simp [sanitizeCreate, h, he]
  constructor
  · simp [createHandler, runChecks_single, createChains, hc]
  · simp

/-- Witness for C4: the empty create body is rejected with 404 and one
validation failure, leaving the store untouched. -/
theorem create_invalid_name_rejected_witness :
    ((⟨none, none, none⟩ : CreateBody).name = none ∨
      (⟨none, none, none⟩ : CreateBody).name = some "") ∧
    (createHandler ⟨[], 1⟩ ⟨none, none, none⟩ =
      ({ status := 404, body := .errors [{ path := "name", msg := "Invalid value" }] },
       (⟨[], 1⟩ : Store)) ∧
     ([{ path := "name", msg := "Invalid value" }] : List FieldError) ≠ []) :=
  ⟨Or.inl rfl, create_invalid_name_rejected ⟨[], 1⟩ ⟨none, none, none⟩ (Or.inl rfl)⟩

/-- Claim C6: for every list request (no input required), the handler fetches
every Task currently in the store and always responds with status 200 and a
JSON array (possibly empty) of those Tasks in store order, with no
validation step and no change to the store. -/
theorem read_returns_all_tasks (s : Store) :
    readHandler s = ({ status := 200, body := .tasks (prismaFindMany s) }, s) ∧
    prismaFindMany s = s.tasks := ⟨rfl, rfl⟩

/-- Claim C3: for every delete request whose `id` matches an existing Task
(in a well-formed store), the handler deletes that Task, responds 200 with
the Task's pre-deletion field values, and no Task with that `id` appears in
any subsequent list response. -/
theorem delete_existing_removes_task (s : Store) (p : String) (i : Int) (t : Task)
    (hwf : s.wf) (hpne : p ≠ "") (hp : jsParseInt p = some i)
    (ht : findById s.tasks i = some t) :
    (deleteHandler s p).1 = { status := 200, body := .task t } ∧
    (deleteHandler s p).2 = { s with tasks := removeById s.tasks i } ∧
    ∀ u ∈ prismaFindMany (deleteHandler s p).2, u.id ≠ i := by
  have hd : prismaDelete s (jsParseInt p) =
      .ok (t, { s with tasks := removeById s.tasks i }) := by
    simp [prismaDelete, hp, ht]
  rw [deleteHandler_eq_store s p (isEmpty_false_of_ne p hpne), hd]
  refine ⟨rfl, rfl, ?_⟩
  intro u hu
  exact removeById_id_ne i hwf.1 u (by simpa [prismaFindMany] using hu)

/-- Witness for C3: deleting id 1 from a one-task store answers 200 with the
task's prior values and the remaining store holds no task with id 1. -/
theorem delete_existing_removes_task_witness :
    Store.wf ⟨[⟨1, "Buy milk", "2%", true⟩], 2⟩ ∧
    ("1" ≠ "") ∧
    jsParseInt "1" = some 1 ∧
    findById [⟨1, "Buy milk", "2%", true⟩] 1 = some ⟨1, "Buy milk", "2%", true⟩ ∧
    ((deleteHandler ⟨[⟨1, "Buy milk", "2%", true⟩], 2⟩ "1").1 =
       { status := 200, body := .task ⟨1, "Buy milk", "2%", true⟩ } ∧
     (deleteHandler ⟨[⟨1, "Buy milk", "2%", true⟩], 2⟩ "1").2 =
       { tasks := [], nextId := 2 } ∧
     ∀ u ∈ prismaFindMany (deleteHandler ⟨[⟨1, "Buy milk", "2%", true⟩], 2⟩ "1").2,
       u.id ≠ (1 : Int)) :=
  ⟨by decide, by decide, by decide, by decide,
    delete_existing_removes_task ⟨[⟨1, "Buy milk", "2%", true⟩], 2⟩ "1" 1
      ⟨1, "Buy milk", "2%", true⟩ (by decide) (by decide) (by decide) (by decide)⟩

/-- Claim C5: for every update or delete request naming an `id` with no
matching Task in the store, the handler responds 500 carrying the store
failure detail (never a silent success) and the store is unchanged. -/
theorem missing_id_update_delete_500 (s : Store) (b : UpdateBody) (i : Int)
    (p : String) (j : Int)
    (hb : b.id = some i) (hi : findById s.tasks i = none)
    (hpne : p ≠ "") (hp : jsParseInt p = some j) (hj : findById s.tasks j = none) :
    updateHandler s b = ({ status := 500, body := .storeError .notFound }, s) ∧
    deleteHandler s p = ({ status := 500, body := .storeError .notFound }, s) := by
  constructor
  · have hu : prismaUpdate s b = .error .notFound := by simp [prismaUpdate, hb, hi]
    rw [updateHandler_eq_store, hu]
  · have hd : prismaDelete s (jsParseInt p) = .error .notFound := by
      simp [prismaDelete, hp, hj]
    rw [deleteHandler_eq_store s p (isEmpty_false_of_ne p hpne), hd]

/-- Witness for C5: updating id 5 and deleting id 7 on the empty store both
answer 500 with the not-found store error and leave the store empty. -/
theorem missing_id_update_delete_500_witness :
    ((⟨some 5, none, none, none⟩ : UpdateBody).id = some 5) ∧
    findById ([] : List Task) 5 = none ∧
    ("7" ≠ "") ∧
    jsParseInt "7" = some 7 ∧
    findById ([] : List Task) 7 = none ∧
    (updateHandler ⟨[], 1⟩ ⟨some 5, none, none, none⟩ =
       ({ status := 500, body := .storeError .notFound }, (⟨[], 1⟩ : Store)) ∧
     deleteHandler ⟨[], 1⟩ "7" =
       ({ status := 500, body := .storeError .notFound }, (⟨[], 1⟩ : Store))) :=
  ⟨rfl, rfl, by decide, by decide, rfl,
    missing_id_update_delete_500 ⟨[], 1⟩ ⟨some 5, none, none, none⟩ 5 "7" 7
      rfl rfl (by decide) (by decide) rfl⟩

/-- Claim C7: starting from a well-formed store, every operation preserves
the uniqueness of `id`s (pairwise-distinct ids, all below the autoincrement
counter), and after a successful create the created `id` appears exactly
once in the list of tasks a subsequent list request returns. -/
theorem id_uniqueness_invariant (s : Store) (hwf : s.wf) :
    (∀ b : CreateBody, ((createHandler s b).2).wf ∧
      ((createHandler s b).1.status = 200 →
        (prismaFindMany (createHandler s b).2).countP (fun u => u.id == s.nextId) = 1)) ∧
    ((readHandler s).2).wf ∧
    (∀ b : UpdateBody, ((updateHandler s b).2).wf) ∧
    (∀ p : String, ((deleteHandler s p).2).wf) := by
  refine ⟨?_, hwf, ?_, ?_⟩
  · intro b
    rcases createHandler_cases s b with h | ⟨n, info, d, h⟩
    · rw [h]
      exact ⟨hwf, by simp⟩
    · rw [h]
      exact ⟨(wf_create s hwf n info d).1, fun _ => (wf_create s hwf n info d).2⟩
  · intro b
    rw [updateHandler_eq_store]
    cases hb : b.id with
    | none =>
      simp only [prismaUpdate, hb]
      exact hwf
    | some i =>
      cases hf : findById s.tasks i with
      | none =>
        simp only [prismaUpdate, hb, hf]
        exact hwf
      | some t =>
        simp only [prismaUpdate, hb, hf]
        exact wf_updateById s hwf i b.name b.info b.isDone
  · intro p
    cases hie : p.isEmpty with
    | true =>
      have h : deleteHandler s p =
          ({ status := 200, body := .errors [{ path := "id", msg := "Invalid value" }] }, s) := by
        simp [deleteHandler, runChecks_single, deleteChains, hie]
      rw [h]
      exact hwf
    | false =>
      rw [deleteHandler_eq_store s p hie]
      cases hip : jsParseInt p with
      | none =>
        simp only [prismaDelete, hip]
        exact hwf
      | some i =>
        cases hf : findById s.tasks i with
        | none =>
          simp only [prismaDelete, hip, hf]
          exact hwf
        | some t =>
          simp only [prismaDelete, hip, hf]
          exact wf_removeById s hwf i

/-- Witness for C7: the invariant statement instantiated on a concrete
well-formed two-task store. -/
theorem id_uniqueness_invariant_witness :
    Store.wf ⟨[⟨1, "a", "", false⟩, ⟨2, "b", "x", true⟩], 3⟩ ∧
    ((∀ b : CreateBody,
        ((createHandler ⟨[⟨1, "a", "", false⟩, ⟨2, "b", "x", true⟩], 3⟩ b).2).wf ∧
        ((createHandler ⟨[⟨1, "a", "", false⟩, ⟨2, "b", "x", true⟩], 3⟩ b).1.status = 200 →
          (prismaFindMany
            (createHandler ⟨[⟨1, "a", "", false⟩, ⟨2, "b", "x", true⟩], 3⟩ b).2).countP
              (fun u => u.id == (3 : Int)) = 1)) ∧
     ((readHandler ⟨[⟨1, "a", "", false⟩, ⟨2, "b", "x", true⟩], 3⟩).2).wf ∧
     (∀ b : UpdateBody,
        ((updateHandler ⟨[⟨1, "a", "", false⟩, ⟨2, "b", "x", true⟩], 3⟩ b).2).wf) ∧
     (∀ p : String,
        ((deleteHandler ⟨[⟨1, "a", "", false⟩, ⟨2, "b", "x", true⟩], 3⟩ p).2).wf)) :=
  ⟨by decide, id_uniqueness_invariant ⟨[⟨1, "a", "", false⟩, ⟨2, "b", "x", true⟩], 3⟩ (by decide)⟩

/-- Claim C8 is false as stated: it says a request fails update validation
exactly when one of `id`, `name`, `info`, `isDone` is absent from the
payload, but on the payload with every field absent the validation result
is empty and the handler proceeds to the store call (which answers 500 from
the store, not a validation-failure response). -/
theorem update_validation_c8_counterexample :
    runChecks updateChains ⟨none, none, none, none⟩ = [] ∧
    updateHandler ⟨[], 1⟩ ⟨none, none, none, none⟩ =
      ({ status := 500, body := .storeError .invalidArg }, (⟨[], 1⟩ : Store)) :=
  ⟨rfl, rfl⟩

/-- Claim C8 (amended): the update handler's validation step accepts `id`,
`name`, `info`, `isDone` without validating type or presence against any
rule; its chains attach no validator at all, so the validation result is
empty for every payload and no request ever fails update validation, even
when fields are absent. -/
theorem update_validation_accepts_everything (b : UpdateBody) :
    runChecks updateChains b = [] := rfl

/-- Claim C9: for every request to the update endpoint, regardless of the
payload, the validation result is empty, so the validation-error branch is
unreachable and the handler always proceeds to issue the store update,
answering exactly as the store operation does. -/
theorem update_validation_unreachable (s : Store) (b : UpdateBody) :
    runChecks updateChains b = [] ∧
    ((∃ r, prismaUpdate s b = .ok r ∧
        updateHandler s b = ({ status := 200, body := .task r.1 }, r.2)) ∨
     (∃ e, prismaUpdate s b = .error e ∧
        updateHandler s b = ({ status := 500, body := .storeError e }, s))) := by
  refine ⟨rfl, ?_⟩
  cases hpu : prismaUpdate s b with
  | ok r => exact .inl ⟨r, rfl, by rw [updateHandler_eq_store, hpu]⟩
  | error e => exact .inr ⟨e, rfl, by rw [updateHandler_eq_store, hpu]⟩

/-- Claim C10: for every delete request whose path `id` segment is not a
decimal-integer string, the handler returns no validation failure: it
passes `parseInt(id)` to the store delete, so an id with a numeric prefix
such as `"12abc"` deletes the Task whose id is that prefix, while a wholly
non-numeric id parses to `NaN` and surfaces as a 500 store-error response
with the store unchanged. -/
theorem delete_nonnumeric_id_behavior (s : Store) (p : String) (hpne : p ≠ "") :
    runChecks deleteChains p = [] ∧
    (jsParseInt p = none →
      deleteHandler s p = ({ status := 500, body := .storeError .invalidArg }, s)) ∧
    (∀ i t, jsParseInt p = some i → findById s.tasks i = some t →
      deleteHandler s p =
        ({ status := 200, body := .task t }, { s with tasks := removeById s.tasks i })) ∧
    jsParseInt "12abc" = some 12 ∧ jsParseInt "abc" = none := by
  have hie := isEmpty_false_of_ne p hpne
  refine ⟨?_, ?_, ?_, by decide, by decide⟩
  · simp [runChecks_single, deleteChains, hie]
  · intro h
    rw [deleteHandler_eq_store s p hie]
    simp [prismaDelete, h]
  · intro i t hp ht
    rw [deleteHandler_eq_store s p hie]
    simp [prismaDelete, hp, ht]

/-- Witness for C10: on a store holding task 12, the path segment `"12abc"`
passes validation, parses to 12, and deletes task 12. -/
theorem delete_nonnumeric_id_behavior_witness :
    ("12abc" ≠ "") ∧
    (runChecks deleteChains "12abc" = [] ∧
     (jsParseInt "12abc" = none →
       deleteHandler ⟨[⟨12, "t", "", false⟩], 13⟩ "12abc" =
         ({ status := 500, body := .storeError .invalidArg },
          (⟨[⟨12, "t", "", false⟩], 13⟩ : Store))) ∧
     (∀ i t, jsParseInt "12abc" = some i →
        findById [⟨12, "t", "", false⟩] i = some t →
        deleteHandler ⟨[⟨12, "t", "", false⟩], 13⟩ "12abc" =
          ({ status := 200, body := .task t },
           { tasks := removeById [⟨12, "t", "", false⟩] i, nextId := 13 })) ∧
     jsParseInt "12abc" = some 12 ∧ jsParseInt "abc" = none) :=
  ⟨by decide, delete_nonnumeric_id_behavior ⟨[⟨12, "t", "", false⟩], 13⟩ "12abc" (by decide)⟩

end CrudNode
